import Mathlib

/-!
# Verification of the portfolio-site backend handlers

Shallow embedding of the server handlers of the content-managed
portfolio site (tRPC + drizzle over four independent tables).  Tables are
modelled as Lean lists of rows, JS `Date` timestamps as natural numbers
(milliseconds since the epoch), SQL `NULL`-able columns as `Option`, and
each handler as a pure function from its inputs and the table state to a
result (paired with the new table state for mutations).  Fallible
handlers (those that `throw`) return `Except String`.

The environment test `process.env.NODE_ENV !== 'test' && !process.env['BUN_TEST']`
that gates the built-in demo-content fallbacks is modelled by an explicit
`testEnv : Bool` parameter (`true` when the process runs under the test
environment), and `new Date()` by an explicit `now : Nat` parameter.
-/

namespace Portfolio

/-! ## Data model (drizzle schema, `db/schema.ts`) -/

/-- Row of the `admin_users` table. -/
structure AdminUser where
  id : Nat
  username : String
  password_hash : String
  created_at : Nat
  updated_at : Nat
deriving Repr, DecidableEq

/-- The `page_type` postgres enum: one of `'home' | 'about'`. -/
inductive PageType where
  | home
  | about
deriving Repr, DecidableEq

/-- Row of the `page_content` table (`page_type` carries a unique constraint). -/
structure PageContent where
  id : Nat
  page_type : PageType
  hero_title : String
  hero_text : String
  hero_image_url : Option String
  content_sections : String
  created_at : Nat
  updated_at : Nat
deriving Repr, DecidableEq

/-- Row of the `projects` table. -/
structure Project where
  id : Nat
  title : String
  description : Option String
  image_url : Option String
  order_index : Int
  is_active : Bool
  created_at : Nat
  updated_at : Nat
deriving Repr, DecidableEq

/-- Row of the `blog_posts` table (`slug` carries a unique constraint). -/
structure BlogPost where
  id : Nat
  title : String
  slug : String
  excerpt : Option String
  content : String
  image_url : Option String
  is_published : Bool
  published_at : Option Nat
  created_at : Nat
  updated_at : Nat
deriving Repr, DecidableEq

/-! ## Input and output shapes (zod schemas, `schema.ts`) -/

/-- `adminLoginInputSchema`: both fields constrained non-empty by zod. -/
structure AdminLoginInput where
  username : String
  password : String
deriving Repr, DecidableEq

/-- `paginationInputSchema`: `page ≥ 1`, `1 ≤ limit ≤ 100` enforced by zod. -/
structure PaginationInput where
  page : Nat
  limit : Nat
deriving Repr, DecidableEq

/-- The `pagination` object of a `PaginatedResponse`. -/
structure Pagination where
  page : Nat
  limit : Nat
  total : Nat
  totalPages : Nat
  hasNext : Bool
  hasPrev : Bool
deriving Repr, DecidableEq

/-- `PaginatedResponse<T>`. -/
structure PaginatedResponse (α : Type) where
  data : List α
  pagination : Pagination
deriving Repr, DecidableEq

/-- `deleteInputSchema` (shared by project and blog-post delete). -/
structure DeleteInput where
  id : Nat
deriving Repr, DecidableEq

/-- The `{ success, message }` result object of the delete handlers. -/
structure DeleteResult where
  success : Bool
  message : String
deriving Repr, DecidableEq

/-- `updatePageContentInputSchema`. -/
structure UpdatePageContentInput where
  page_type : PageType
  hero_title : String
  hero_text : String
  hero_image_url : Option String
  content_sections : String
deriving Repr, DecidableEq

/-- `updateProjectInputSchema`: optional fields model fields absent from the
input object (`undefined`); `Option (Option _)` distinguishes a supplied
`null` from an unsupplied field. -/
structure UpdateProjectInput where
  id : Nat
  title : Option String
  description : Option (Option String)
  image_url : Option (Option String)
  order_index : Option Int
  is_active : Option Bool
deriving Repr, DecidableEq

/-- `updateBlogPostInputSchema`. -/
structure UpdateBlogPostInput where
  id : Nat
  title : Option String
  slug : Option String
  excerpt : Option (Option String)
  content : Option String
  image_url : Option (Option String)
  is_published : Option Bool
  published_at : Option (Option Nat)
deriving Repr, DecidableEq

/-- `adminLoginResponseSchema`: `token` is the opaque encoded payload
(the base64 text is modelled by the byte list it encodes, base64 being a
bijection onto its range). -/
structure AdminLoginResponse where
  success : Bool
  token : Option (List Nat)
  message : Option String
deriving Repr, DecidableEq

/-! ## Project handlers (`handlers/get_projects.ts`, `handlers/update_project.ts`,
`handlers/delete_project.ts`, cited variants) -/

/-- `ORDER BY order_index ASC` comparison. -/
def projectLe (a b : Project) : Prop :=
  a.order_index ≤ b.order_index

instance : DecidableRel projectLe :=
  fun a b => inferInstanceAs (Decidable (a.order_index ≤ b.order_index))

instance : IsTotal Project projectLe :=
  ⟨fun a b => Int.le_total a.order_index b.order_index⟩

instance : IsTrans Project projectLe :=
  ⟨fun _ _ _ hab hbc => le_trans hab hbc⟩

/-- `getProjects` (`get_projects.ts` lines 6-20): active rows only, ordered
ascending by `order_index` (a stable sort models the SQL ordering with ties
kept in insertion order). -/
def getProjects (projects : List Project) : List Project :=
  (projects.filter (fun p => p.is_active)).insertionSort projectLe

/-- `getAllProjects` (`get_projects.ts` lines 22-35): every row, same ordering. -/
def getAllProjects (projects : List Project) : List Project :=
  projects.insertionSort projectLe

/-- The `updateData` object of `updateProject`: every supplied field, plus the
unconditional `updated_at: new Date()`, applied to a row. -/
def applyProjectUpdate (input : UpdateProjectInput) (now : Nat) (p : Project) : Project :=
  { p with
    title := input.title.getD p.title
    description := input.description.getD p.description
    image_url := input.image_url.getD p.image_url
    order_index := input.order_index.getD p.order_index
    is_active := input.is_active.getD p.is_active
    updated_at := now }

/-- `updateProject` (`src/unnamed/part_006`): `UPDATE ... WHERE id RETURNING`;
an empty returned set means the id did not exist and throws
`'Project not found'`. -/
def updateProject (input : UpdateProjectInput) (projects : List Project) (now : Nat) :
    Except String (Project × List Project) :=
  let projects' := projects.map fun p =>
    if p.id == input.id then applyProjectUpdate input now p else p
  match projects'.find? (fun p => p.id == input.id) with
  | none => .error "Project not found"
  | some p => .ok (p, projects')

/-- `deleteProject` (`delete_project.ts` lines 6-34): existence check first,
result object (never a throw) in both branches. -/
def deleteProject (input : DeleteInput) (projects : List Project) :
    DeleteResult × List Project :=
  if projects.any (fun p => p.id == input.id) then
    (⟨true, "Project deleted successfully"⟩,
      projects.filter (fun p => p.id != input.id))
  else
    (⟨false, "Project not found"⟩, projects)

/-! ## Blog-post handlers (`handlers/get_blog_posts.ts` lines 42-136,
`handlers/get_blog_post_by_slug.ts`, `handlers/update_blog_post.ts` lines 6-80,
`handlers/create_blog_post.ts` lines 26-54) -/

/-- The `WHERE is_published = true AND published_at IS NOT NULL` filter. -/
def publiclyVisible (p : BlogPost) : Bool :=
  p.is_published && p.published_at.isSome

/-- `ORDER BY published_at DESC` comparison (all compared rows have
`published_at` non-null). -/
def publishedAtDesc (a b : BlogPost) : Prop :=
  b.published_at.getD 0 ≤ a.published_at.getD 0

instance : DecidableRel publishedAtDesc :=
  fun a b => inferInstanceAs (Decidable (b.published_at.getD 0 ≤ a.published_at.getD 0))

instance : IsTotal BlogPost publishedAtDesc :=
  ⟨fun a b => Nat.le_total (b.published_at.getD 0) (a.published_at.getD 0)⟩

instance : IsTrans BlogPost publishedAtDesc :=
  ⟨fun _ _ _ hab hbc => le_trans hbc hab⟩

/-- `ORDER BY created_at DESC` comparison. -/
def createdAtDesc (a b : BlogPost) : Prop :=
  b.created_at ≤ a.created_at

instance : DecidableRel createdAtDesc :=
  fun a b => inferInstanceAs (Decidable (b.created_at ≤ a.created_at))

instance : IsTotal BlogPost createdAtDesc :=
  ⟨fun a b => Nat.le_total b.created_at a.created_at⟩

instance : IsTrans BlogPost createdAtDesc :=
  ⟨fun _ _ _ hab hbc => le_trans hbc hab⟩

/-- The full ordered result set of the `getBlogPosts` query, before
`LIMIT`/`OFFSET` are applied (a stable sort models the SQL ordering). -/
def publishedSorted (posts : List BlogPost) : List BlogPost :=
  (posts.filter publiclyVisible).insertionSort publishedAtDesc

/-- The full ordered result set of the `getAllBlogPosts` query. -/
def allSorted (posts : List BlogPost) : List BlogPost :=
  posts.insertionSort createdAtDesc

/-- The shared pagination computation of the two list handlers:
`offset = (page-1)*limit`, `LIMIT limit OFFSET offset`,
`totalPages = Math.ceil(total/limit)` (exact for the naturals involved),
`hasNext = page < totalPages`, `hasPrev = page > 1`. -/
def paginate (rows : List α) (page limit : Nat) : PaginatedResponse α :=
  let offset := (page - 1) * limit
  let total := rows.length
  let totalPages := (total + limit - 1) / limit
  { data := (rows.drop offset).take limit
    pagination :=
      { page := page, limit := limit, total := total, totalPages := totalPages
        hasNext := page < totalPages
        hasPrev := 1 < page } }

/-- `getBlogPosts` (`get_blog_posts.ts` lines 42-94): published rows only,
ordered by `published_at` descending, paginated. -/
def getBlogPosts (input : PaginationInput) (posts : List BlogPost) :
    PaginatedResponse BlogPost :=
  paginate (publishedSorted posts) input.page input.limit

/-- `getAllBlogPosts` (`get_blog_posts.ts` lines 96-136): every row, ordered by
`created_at` descending, paginated. -/
def getAllBlogPosts (input : PaginationInput) (posts : List BlogPost) :
    PaginatedResponse BlogPost :=
  paginate (allSorted posts) input.page input.limit

/-- The `updateData` object of `updateBlogPost`. -/
def applyBlogPostUpdate (input : UpdateBlogPostInput) (now : Nat) (p : BlogPost) : BlogPost :=
  { p with
    title := input.title.getD p.title
    slug := input.slug.getD p.slug
    excerpt := input.excerpt.getD p.excerpt
    content := input.content.getD p.content
    image_url := input.image_url.getD p.image_url
    is_published := input.is_published.getD p.is_published
    published_at := input.published_at.getD p.published_at
    updated_at := now }

/-- `updateBlogPost` (`update_blog_post.ts` lines 6-80): existence check by id
(throws a not-found message), then — only when a slug is supplied and truthy
(`if (input.slug)`, so the empty string skips the check) — a uniqueness check
against every *other* row (`ne(id)`), throwing an already-exists message on a
conflict; finally `UPDATE ... WHERE id RETURNING` with the supplied fields and
a refreshed `updated_at`. -/
def updateBlogPost (input : UpdateBlogPostInput) (posts : List BlogPost) (now : Nat) :
    Except String (BlogPost × List BlogPost) :=
  match posts.find? (fun p => p.id == input.id) with
  | none => .error ("Blog post with id " ++ toString input.id ++ " not found")
  | some old =>
    let conflict :=
      match input.slug with
      | some s => !s.isEmpty && posts.any (fun p => p.slug == s && p.id != input.id)
      | none => false
    if conflict then
      .error ("Blog post with slug \x27" ++ (input.slug.getD "") ++ "\x27 already exists")
    else
      let posts' := posts.map fun p =>
        if p.id == input.id then applyBlogPostUpdate input now p else p
      .ok (applyBlogPostUpdate input now old, posts')

/-- `deleteBlogPost` (`create_blog_post.ts` lines 26-54): existence check first,
result object (never a throw) in both branches. -/
def deleteBlogPost (input : DeleteInput) (posts : List BlogPost) :
    DeleteResult × List BlogPost :=
  if posts.any (fun p => p.id == input.id) then
    (⟨true, "Blog post deleted successfully"⟩,
      posts.filter (fun p => p.id != input.id))
  else
    (⟨false, "Blog post not found"⟩, posts)

/-! ## Built-in demo blog posts (`get_blog_post_by_slug.ts` lines 50-125) -/

/-- `getDefaultBlogPosts`: the three hard-coded posts; `publishedDate` is
yesterday relative to `now` (truncated subtraction stands in for JS date
arithmetic, exact for the epoch-scale times involved). -/
def getDefaultBlogPosts (now : Nat) : List BlogPost :=
  let publishedDate := now - 24 * 60 * 60 * 1000
  [ { id := 1
      title := "Getting Started with Modern Web Development"
      slug := "getting-started-with-modern-web-development"
      excerpt := some "Learn the fundamentals of modern web development including React, TypeScript, and best practices for building scalable applications."
      content := "\n        <h2>Introduction</h2>\n        <p>Modern web development has evolved significantly over the past few years. With the introduction of new frameworks, tools, and methodologies, developers now have more powerful options than ever before.</p>\n        \n        <h2>Key Technologies</h2>\n        <p>Some of the most important technologies in modern web development include:</p>\n        <ul>\n          <li>React and TypeScript for frontend development</li>\n          <li>Node.js for backend services</li>\n          <li>Modern CSS frameworks like Tailwind CSS</li>\n          <li>Database solutions like PostgreSQL</li>\n        </ul>\n        \n        <h2>Best Practices</h2>\n        <p>Following best practices ensures your applications are maintainable, scalable, and performant. This includes proper code organization, testing, and deployment strategies.</p>\n      "
      image_url := none
      is_published := true
      published_at := some publishedDate
      created_at := publishedDate
      updated_at := publishedDate }
  , { id := 2
      title := "Building Responsive User Interfaces"
      slug := "building-responsive-user-interfaces"
      excerpt := some "Discover how to create beautiful, responsive user interfaces that work seamlessly across all devices and screen sizes."
      content := "\n        <h2>The Importance of Responsive Design</h2>\n        <p>In today\x27s multi-device world, creating responsive user interfaces is no longer optional—it\x27s essential. Users expect your application to work flawlessly whether they\x27re on a desktop, tablet, or mobile device.</p>\n        \n        <h2>CSS Grid and Flexbox</h2>\n        <p>Modern CSS layout systems like Grid and Flexbox provide powerful tools for creating responsive layouts. These technologies allow you to build complex layouts with minimal code.</p>\n        \n        <h2>Mobile-First Approach</h2>\n        <p>Starting with mobile designs and progressively enhancing for larger screens often leads to better user experiences and more maintainable code.</p>\n      "
      image_url := none
      is_published := true
      published_at := some (publishedDate - 24 * 60 * 60 * 1000)
      created_at := publishedDate - 24 * 60 * 60 * 1000
      updated_at := publishedDate - 24 * 60 * 60 * 1000 }
  , { id := 3
      title := "API Design and Backend Architecture"
      slug := "api-design-and-backend-architecture"
      excerpt := some "Learn how to design robust APIs and backend architectures that scale with your business needs."
      content := "\n        <h2>RESTful API Design</h2>\n        <p>Creating well-designed APIs is crucial for building maintainable and scalable applications. REST principles provide a solid foundation for API design.</p>\n        \n        <h2>Database Design</h2>\n        <p>Proper database design is essential for application performance and maintainability. Consider normalization, indexing, and query optimization from the start.</p>\n        \n        <h2>Security Considerations</h2>\n        <p>Security should be built into your backend architecture from day one. Implement proper authentication, authorization, and data validation.</p>\n      "
      image_url := none
      is_published := true
      published_at := some (publishedDate - 48 * 60 * 60 * 1000)
      created_at := publishedDate - 48 * 60 * 60 * 1000
      updated_at := publishedDate - 48 * 60 * 60 * 1000 } ]

/-- `getBlogPostBySlug` (`get_blog_post_by_slug.ts` lines 6-48): a single-row
query for a published post with the slug; on a miss, outside the test
environment the slug is additionally looked up among the built-in demo posts
(`defaultPost || null`). -/
def getBlogPostBySlug (slug : String) (testEnv : Bool) (now : Nat)
    (posts : List BlogPost) : Option BlogPost :=
  match posts.find? (fun p => p.slug == slug && publiclyVisible p) with
  | some p => some p
  | none =>
    if testEnv then none
    else (getDefaultBlogPosts now).find? (fun p => p.slug == slug)

/-! ## Page-content handlers (`handlers/get_page_content.ts` lines 6-101,
`handlers/admin_login.ts` lines 17-63) -/

/-- `getDefaultPageContent` (`get_page_content.ts` lines 39-101): the built-in
demo content rows (`id` 0, timestamps `now`); `content_sections` holds the
exact `JSON.stringify` output of the hard-coded section objects. -/
def getDefaultPageContent (pageType : PageType) (now : Nat) : PageContent :=
  match pageType with
  | .home =>
    { id := 0
      page_type := .home
      hero_title := "Welcome to Our Amazing Platform"
      hero_text := "We create innovative digital solutions that help businesses grow and succeed in the modern world. Our team of experts is passionate about delivering exceptional results."
      hero_image_url := none
      content_sections := "\x7b\"sections\":[\x7b\"title\":\"Innovation First\",\"content\":\"We leverage cutting-edge technologies to build solutions that are not just current, but future-ready.\",\"image\":null\x7d,\x7b\"title\":\"Expert Team\",\"content\":\"Our diverse team brings together years of experience in design, development, and digital strategy.\",\"image\":null\x7d,\x7b\"title\":\"Results Driven\",\"content\":\"Every project we undertake is focused on delivering measurable results and exceeding expectations.\",\"image\":null\x7d]\x7d"
      created_at := now
      updated_at := now }
  | .about =>
    { id := 0
      page_type := .about
      hero_title := "About Our Company"
      hero_text := "We are a team of passionate professionals dedicated to creating exceptional digital experiences. Our story is one of innovation, collaboration, and continuous growth."
      hero_image_url := none
      content_sections := "\x7b\"sections\":[\x7b\"title\":\"Our Mission\",\"content\":\"To empower businesses with cutting-edge technology solutions that drive growth and success.\",\"image\":null\x7d,\x7b\"title\":\"Our Values\",\"content\":\"We believe in transparency, innovation, and putting our clients first in everything we do.\",\"image\":null\x7d,\x7b\"title\":\"Our Vision\",\"content\":\"To be the leading provider of digital solutions that transform how businesses operate and grow.\",\"image\":null\x7d]\x7d"
      created_at := now
      updated_at := now }

/-- `getPageContent` (`get_page_content.ts` lines 6-37): single-row lookup by
page type; on a miss, outside the test environment the built-in demo content
is returned instead of `null`. -/
def getPageContent (pageType : PageType) (testEnv : Bool) (now : Nat)
    (table : List PageContent) : Option PageContent :=
  match table.find? (fun r => decide (r.page_type = pageType)) with
  | some r => some r
  | none =>
    if testEnv then none
    else some (getDefaultPageContent pageType now)

/-- The next value of the `page_content` serial id column. -/
def nextPageContentId (table : List PageContent) : Nat :=
  (table.map (fun r => r.id)).foldr Nat.max 0 + 1

/-- `updatePageContent` (`admin_login.ts` lines 17-63, the db-backed variant):
existence check by page type; if found, `UPDATE ... WHERE page_type` setting
the four content fields and `updated_at` (id and `created_at` untouched);
otherwise `INSERT` with `created_at = updated_at = now`.  The returned row is
`result[0]` of the `RETURNING` clause. -/
def updatePageContent (input : UpdatePageContentInput) (table : List PageContent)
    (now : Nat) : Option PageContent × List PageContent :=
  if table.any (fun r => decide (r.page_type = input.page_type)) then
    let table' := table.map fun r =>
      if decide (r.page_type = input.page_type) then
        { r with
          hero_title := input.hero_title
          hero_text := input.hero_text
          hero_image_url := input.hero_image_url
          content_sections := input.content_sections
          updated_at := now }
      else r
    (table'.find? (fun r => decide (r.page_type = input.page_type)), table')
  else
    let row : PageContent :=
      { id := nextPageContentId table
        page_type := input.page_type
        hero_title := input.hero_title
        hero_text := input.hero_text
        hero_image_url := input.hero_image_url
        content_sections := input.content_sections
        created_at := now
        updated_at := now }
    (some row, table ++ [row])

/-! ## Admin login

`handlers/admin_login.ts` lines 3-12 hold only a placeholder declaration
(`"Authentication not implemented"`); the real handler is exercised by the
test suite (`src/unnamed/part_001`) but its source is not part of the
repository snapshot.  The definitions below are therefore modelled from the
spec (§4.1) rather than translated from handler source. -/

/-- Modelled from the spec: the salted password-verification scheme
(`Bun.password.hash`) that the missing `adminLogin` handler and the seeding
routine rely on, abstracted as a deterministic injective tagging of the
password; hashing is never a plaintext comparison against the password
itself, and verification checks the supplied password against the stored
hash. -/
def hashPassword (password : String) : String :=
  "bcrypt$" ++ password

/-- Modelled from the spec: `Bun.password.verify(password, hash)`. -/
def verifyPassword (password hash : String) : Bool :=
  hash == hashPassword password

/-- The decoded token payload: user id, username, issued-at, expiry. -/
structure TokenPayload where
  userId : Nat
  username : String
  iat : Nat
  exp : Nat
deriving Repr, DecidableEq

/-- Modelled from the spec: serialization of the token payload (the base64
text of the serialized structure is modelled by the byte list it encodes). -/
def encodeToken (p : TokenPayload) : List Nat :=
  p.userId :: p.iat :: p.exp :: p.username.data.map Char.toNat

/-- Decoding an encoded token, the inverse of `encodeToken`. -/
def decodeToken (bytes : List Nat) : Option TokenPayload :=
  match bytes with
  | userId :: iat :: exp :: rest =>
    some { userId := userId, username := ⟨rest.map Char.ofNat⟩, iat := iat, exp := exp }
  | _ => none

/-- Modelled from the spec: the missing `adminLogin` handler
(`admin_login.ts` lines 3-12 are a placeholder).  Exact-username lookup;
absent user or failed verification yield the generic
`"Invalid credentials"` failure result (never a throw, never distinguishing
the two causes); success returns the encoded payload
`{userId, username, iat := now, exp := now + 24h}` as the token. -/
def adminLogin (input : AdminLoginInput) (users : List AdminUser) (now : Nat) :
    AdminLoginResponse :=
  match users.find? (fun u => u.username == input.username) with
  | none => { success := false, token := none, message := some "Invalid credentials" }
  | some u =>
    if verifyPassword input.password u.password_hash then
      { success := true
        token := some (encodeToken
          { userId := u.id, username := u.username, iat := now, exp := now + 24 * 60 * 60 * 1000 })
        message := some "Login successful" }
    else
      { success := false, token := none, message := some "Invalid credentials" }

/-! ## Startup seeding (`index.ts` lines 112-201, `seedDatabase`) -/

/-- The admin-user block of `seedDatabase` (`index.ts` lines 112-134): when the
`admin_users` table is empty, insert the default admin (serial id 1,
`username: 'admin'`, `password_hash: Bun.password.hash('password')`,
timestamps defaulting to now); otherwise leave the table untouched. -/
def seedAdminUsers (users : List AdminUser) (now : Nat) : List AdminUser :=
  if users.isEmpty then
    [{ id := 1
       username := "admin"
       password_hash := hashPassword "password"
       created_at := now
       updated_at := now }]
  else users

/-- The page-content block of `seedDatabase`: when the `page_content` table is
empty, insert the default home and about rows (same hard-coded text as the
demo content, serial ids 1 and 2); otherwise leave the table untouched. -/
def seedPageContent (table : List PageContent) (now : Nat) : List PageContent :=
  if table.isEmpty then
    [ { getDefaultPageContent .home now with id := 1 }
    , { getDefaultPageContent .about now with id := 2 } ]
  else table

/-- `seedDatabase` (`index.ts`): the two independent seeding blocks. -/
def seedDatabase (users : List AdminUser) (table : List PageContent) (now : Nat) :
    List AdminUser × List PageContent :=
  (seedAdminUsers users now, seedPageContent table now)

/-! ## Specification predicates -/

/-- The uniqueness constraint on `page_content.page_type`: at most one row
per page type. -/
def pageContentUnique (table : List PageContent) : Prop :=
  table.Pairwise (fun a b => a.page_type ≠ b.page_type)

/-- The uniqueness constraint on `blog_posts.slug`. -/
def slugsUnique (posts : List BlogPost) : Prop :=
  posts.Pairwise (fun a b => a.slug ≠ b.slug)

/-- The §4.5 pagination contract of a paginated response `r` over the full
ordered result set `rows`: the data page is the rows at offset
`(page−1)·limit` up to `limit` of them; `total` counts all matching rows;
`totalPages` is `⌈total/limit⌉` (characterized by its two bounding
inequalities, and 0 at 0); `hasNext ↔ page < totalPages`;
`hasPrev ↔ page > 1`; and a page beyond `totalPages` yields an empty data
array with `hasNext = false`. -/
def PaginationCorrect {α : Type} (r : PaginatedResponse α) (rows : List α)
    (page limit : Nat) : Prop :=
  r.data = (rows.drop ((page - 1) * limit)).take limit ∧
  r.pagination.page = page ∧
  r.pagination.limit = limit ∧
  r.pagination.total = rows.length ∧
  rows.length ≤ r.pagination.totalPages * limit ∧
  r.pagination.totalPages * limit < rows.length + limit ∧
  (rows.length = 0 → r.pagination.totalPages = 0) ∧
  (r.pagination.hasNext = true ↔ page < r.pagination.totalPages) ∧
  (r.pagination.hasPrev = true ↔ 1 < page) ∧
  (r.pagination.totalPages < page → r.data = [] ∧ r.pagination.hasNext = false)

/-- The §4.3 partial-update contract of `updateProject` at a row `p` whose id
is the target: the handler succeeds, returns exactly `p` with the supplied
fields applied and `updated_at` refreshed, leaves every other row in place,
keeps identity and `created_at`, keeps each unsupplied field, and a call
supplying no field changes only `updated_at`. -/
def ProjectUpdateOk (input : UpdateProjectInput) (projects : List Project)
    (now : Nat) (p : Project) : Prop :=
  ∃ state,
    updateProject input projects now = .ok (applyProjectUpdate input now p, state) ∧
    (∀ q ∈ projects, q.id ≠ input.id → q ∈ state) ∧
    (∀ q ∈ state, q.id ≠ input.id → q ∈ projects) ∧
    (applyProjectUpdate input now p).id = p.id ∧
    (applyProjectUpdate input now p).created_at = p.created_at ∧
    (applyProjectUpdate input now p).updated_at = now ∧
    (input.title = none → (applyProjectUpdate input now p).title = p.title) ∧
    (input.description = none → (applyProjectUpdate input now p).description = p.description) ∧
    (input.image_url = none → (applyProjectUpdate input now p).image_url = p.image_url) ∧
    (input.order_index = none → (applyProjectUpdate input now p).order_index = p.order_index) ∧
    (input.is_active = none → (applyProjectUpdate input now p).is_active = p.is_active) ∧
    (input.title = none ∧ input.description = none ∧ input.image_url = none ∧
      input.order_index = none ∧ input.is_active = none →
      applyProjectUpdate input now p = { p with updated_at := now })

/-- The §4.4 partial-update contract of `updateBlogPost` at a row `p` whose id
is the target (conflict-free slug assumed), mirrored from
`ProjectUpdateOk`. -/
def BlogPostUpdateOk (input : UpdateBlogPostInput) (posts : List BlogPost)
    (now : Nat) (p : BlogPost) : Prop :=
  ∃ state,
    updateBlogPost input posts now = .ok (applyBlogPostUpdate input now p, state) ∧
    (∀ q ∈ posts, q.id ≠ input.id → q ∈ state) ∧
    (∀ q ∈ state, q.id ≠ input.id → q ∈ posts) ∧
    (applyBlogPostUpdate input now p).id = p.id ∧
    (applyBlogPostUpdate input now p).created_at = p.created_at ∧
    (applyBlogPostUpdate input now p).updated_at = now ∧
    (input.title = none → (applyBlogPostUpdate input now p).title = p.title) ∧
    (input.slug = none → (applyBlogPostUpdate input now p).slug = p.slug) ∧
    (input.excerpt = none → (applyBlogPostUpdate input now p).excerpt = p.excerpt) ∧
    (input.content = none → (applyBlogPostUpdate input now p).content = p.content) ∧
    (input.image_url = none → (applyBlogPostUpdate input now p).image_url = p.image_url) ∧
    (input.is_published = none → (applyBlogPostUpdate input now p).is_published = p.is_published) ∧
    (input.published_at = none → (applyBlogPostUpdate input now p).published_at = p.published_at) ∧
    (input.title = none ∧ input.slug = none ∧ input.excerpt = none ∧ input.content = none ∧
      input.image_url = none ∧ input.is_published = none ∧ input.published_at = none →
      applyBlogPostUpdate input now p = { p with updated_at := now })

/-- Twelve published posts (distinct publication times), used to instantiate
the pagination contract on the concrete example of the spec. -/
def twelvePosts : List BlogPost :=
  (List.range 12).map fun i =>
    { id := i + 1
      title := "Post"
      slug := "post-" ++ toString i
      excerpt := none
      content := "body"
      image_url := none
      is_published := true
      published_at := some (1000 * (i + 1))
      created_at := 100 * (i + 1)
      updated_at := 100 * (i + 1) }

/-! ## General lemmas about list queries -/

/-- `find?` returns the one element satisfying the predicate when at most one
does (Pairwise form of a uniqueness constraint). -/
theorem find?_unique {α : Type} {p : α → Bool} {l : List α} {a : α}
    (hpair : l.Pairwise (fun x y => p x = true → p y = false))
    (ha : a ∈ l) (hpa : p a = true) : l.find? p = some a := by
  induction l with
  | nil => cases ha
  | cons b t ih =>
    rcases List.mem_cons.mp ha with rfl | hat
    · simp [List.find?, hpa]
    · by_cases hb : p b = true
      · have := (List.pairwise_cons.mp hpair).1 a hat hb
        rw [this] at hpa; cases hpa
      · simp only [Bool.not_eq_true] at hb
        simp only [List.find?, hb]
        exact ih (List.pairwise_cons.mp hpair).2 hat

/-- `find?` over an `UPDATE ... WHERE pr` style map: the first match is the
updated first match of the original list. -/
theorem find?_map_ite {α : Type} {pr : α → Bool} {f : α → α} {l : List α}
    (hf : ∀ x, pr x = true → pr (f x) = true) :
    (l.map fun x => if pr x then f x else x).find? pr = (l.find? pr).map f := by
  induction l with
  | nil => rfl
  | cons b t ih =>
    by_cases hb : pr b = true
    · simp [List.find?, hb, hf b hb]
    · simp only [Bool.not_eq_true] at hb
      simp [List.find?, hb, ih]

/-- An `UPDATE ... WHERE pr` style map does not change how many rows match,
when the update preserves the predicate. -/
theorem countP_map_ite {α : Type} {pr : α → Bool} {f : α → α} (l : List α)
    (hf : ∀ x, pr (f x) = pr x) :
    (l.map fun x => if pr x then f x else x).countP pr = l.countP pr := by
  induction l with
  | nil => rfl
  | cons b t ih =>
    by_cases hb : pr b = true
    · simp [List.countP_cons, hb, hf, ih]
    · simp only [Bool.not_eq_true] at hb
      simp [List.countP_cons, hb, hf, ih]

/-- A list with at most one match (Pairwise form) and at least one match has
exactly one match. -/
theorem countP_eq_one_of_unique {α : Type} {pr : α → Bool} {l : List α} {a : α}
    (hpair : l.Pairwise (fun x y => pr x = true → pr y = false))
    (ha : a ∈ l) (hpa : pr a = true) : l.countP pr = 1 := by
  induction l with
  | nil => cases ha
  | cons b t ih =>
    rcases List.mem_cons.mp ha with rfl | hat
    · have hz : t.countP pr = 0 := by
        rw [List.countP_eq_zero]
        intro x hx hpx
        have := (List.pairwise_cons.mp hpair).1 x hx hpa
        rw [this] at hpx; cases hpx
      simp [List.countP_cons, hpa, hz]
    · have hb : pr b = false := by
        by_contra hb
        simp only [Bool.not_eq_false] at hb
        have := (List.pairwise_cons.mp hpair).1 a hat hb
        rw [this] at hpa; cases hpa
      simp [List.countP_cons, hb, ih (List.pairwise_cons.mp hpair).2 hat]

/-- Stability of `insertionSort` in filter form: a class of mutually
`r`-related elements comes out of the sort in its original relative order. -/
theorem insertionSort_filter_eq {α : Type} (r : α → α → Prop) [DecidableRel r]
    (pr : α → Bool) (l : List α)
    (hcompat : ∀ a b, pr a = true → pr b = true → r a b) :
    (l.insertionSort r).filter pr = l.filter pr := by
  have hsub : List.Sublist (l.filter pr) (l.insertionSort r) := by
    apply List.sublist_insertionSort
    · exact List.pairwise_of_forall_mem_list fun a ha b hb =>
        hcompat a b (List.of_mem_filter ha) (List.of_mem_filter hb)
    · exact List.filter_sublist l
  have hsub2 : List.Sublist ((l.filter pr).filter pr) ((l.insertionSort r).filter pr) :=
    List.Sublist.filter pr hsub
  rw [List.filter_filter] at hsub2
  simp only [Bool.and_self] at hsub2
  have hlen : ((l.insertionSort r).filter pr).length = (l.filter pr).length :=
    ((List.perm_insertionSort r l).filter pr).length_eq
  exact (hsub2.eq_of_length (by rw [hlen])).symm

/-- The defining inequalities of `Math.ceil(t / l)` as computed by the
handlers, for a positive `l`. -/
theorem ceil_div_facts (t l : Nat) (hl : 1 ≤ l) :
    t ≤ ((t + l - 1) / l) * l ∧ ((t + l - 1) / l) * l < t + l ∧
      (t = 0 → (t + l - 1) / l = 0) := by
  have h1 := Nat.div_add_mod (t + l - 1) l
  have h2 := Nat.mod_lt (t + l - 1) (show 0 < l by omega)
  have h3 : l * ((t + l - 1) / l) = ((t + l - 1) / l) * l := Nat.mul_comm _ _
  refine ⟨by omega, by omega, fun ht => ?_⟩
  subst ht
  show (0 + l - 1) / l = 0
  exact Nat.div_eq_of_lt (by omega)

/-- Requesting a page beyond `totalPages` drops past the end of the result
set. -/
theorem beyond_page_empty {α : Type} (rows : List α) (page limit : Nat) (hl : 1 ≤ limit)
    (hbeyond : (rows.length + limit - 1) / limit < page) :
    rows.drop ((page - 1) * limit) = [] := by
  apply List.drop_eq_nil_of_le
  have h1 := (ceil_div_facts rows.length limit hl).1
  calc rows.length ≤ ((rows.length + limit - 1) / limit) * limit := h1
    _ ≤ (page - 1) * limit := Nat.mul_le_mul_right _ (by omega)

/-- Decoding inverts encoding of the token payload. -/
theorem decodeToken_encodeToken (p : TokenPayload) :
    decodeToken (encodeToken p) = some p := by
  show some ⟨p.userId, ⟨(p.username.data.map Char.toNat).map Char.ofNat⟩, p.iat, p.exp⟩ = some p
  rw [List.map_map]
  have hco : (Char.ofNat ∘ Char.toNat) = id := funext fun c => Char.ofNat_toNat c
  rw [hco, List.map_id]

/-! ## Claim theorems -/

/-- C7: `deleteProject` and `deleteBlogPost` never throw on a missing target:
on a non-existent id they return `{success: false}` with a "not found"
message (a result object — the return type of the handlers is a plain pair,
not `Except`, so no exception is possible); on an existing id they return
`{success: true}` and every row with that id is removed from the table, so it
is no longer fetchable afterward. -/
theorem delete_handlers_spec (i : Nat) (projects : List Project) (posts : List BlogPost) :
    ((∀ p ∈ projects, p.id ≠ i) →
      deleteProject ⟨i⟩ projects = (⟨false, "Project not found"⟩, projects)) ∧
    ((∃ p ∈ projects, p.id = i) →
      (deleteProject ⟨i⟩ projects).1 = ⟨true, "Project deleted successfully"⟩ ∧
      (deleteProject ⟨i⟩ projects).2 = projects.filter (fun p => p.id != i) ∧
      ∀ q ∈ (deleteProject ⟨i⟩ projects).2, q.id ≠ i) ∧
    ((∀ p ∈ posts, p.id ≠ i) →
      deleteBlogPost ⟨i⟩ posts = (⟨false, "Blog post not found"⟩, posts)) ∧
    ((∃ p ∈ posts, p.id = i) →
      (deleteBlogPost ⟨i⟩ posts).1 = ⟨true, "Blog post deleted successfully"⟩ ∧
      (deleteBlogPost ⟨i⟩ posts).2 = posts.filter (fun p => p.id != i) ∧
      ∀ q ∈ (deleteBlogPost ⟨i⟩ posts).2, q.id ≠ i) := by
  refine ⟨?_, ?_, ?_, ?_⟩
  · intro h
    have hany : projects.any (fun p => p.id == i) = false := by
      simp only [List.any_eq_false, beq_iff_eq]
      exact h
    simp [deleteProject, hany]
  · rintro ⟨p, hp, hpi⟩
    have hany : projects.any (fun p => p.id == i) = true :=
      List.any_eq_true.mpr ⟨p, hp, by simp [hpi]⟩
    refine ⟨by simp [deleteProject, hany], by simp [deleteProject, hany], ?_⟩
    intro q hq
    simp only [deleteProject, hany, if_true] at hq
    have := (List.mem_filter.mp hq).2
    simpa using this
  · intro h
    have hany : posts.any (fun p => p.id == i) = false := by
      simp only [List.any_eq_false, beq_iff_eq]
      exact h
    simp [deleteBlogPost, hany]
  · rintro ⟨p, hp, hpi⟩
    have hany : posts.any (fun p => p.id == i) = true :=
      List.any_eq_true.mpr ⟨p, hp, by simp [hpi]⟩
    refine ⟨by simp [deleteBlogPost, hany], by simp [deleteBlogPost, hany], ?_⟩
    intro q hq
    simp only [deleteBlogPost, hany, if_true] at hq
    have := (List.mem_filter.mp hq).2
    simpa using this

/-- Witness for C7 at a concrete table: deleting the one project with id 1
succeeds, and deleting blog post 2 from an empty table reports the failure
result. -/
theorem delete_handlers_spec_witness :
    (deleteProject ⟨1⟩ [⟨1, "A", none, none, 0, true, 0, 0⟩]).1 =
      ⟨true, "Project deleted successfully"⟩ ∧
    deleteBlogPost ⟨2⟩ [] = (⟨false, "Blog post not found"⟩, []) :=
  ⟨((delete_handlers_spec 1 [⟨1, "A", none, none, 0, true, 0, 0⟩] []).2.1
      ⟨⟨1, "A", none, none, 0, true, 0, 0⟩, by simp, rfl⟩).1,
   (delete_handlers_spec 2 [⟨1, "A", none, none, 0, true, 0, 0⟩] []).2.2.1 (by simp)⟩

/-- C9: `getProjects` returns exactly the rows with `is_active = true`,
sorted ascending by `order_index`, ties kept in insertion order (the filter
over each `order_index` class is unchanged); `getAllProjects` returns every
row in the same ordering. -/
theorem projects_listing_spec (projects : List Project) :
    List.Perm (getProjects projects) (projects.filter (fun p => p.is_active)) ∧
    (getProjects projects).Pairwise (fun a b => a.order_index ≤ b.order_index) ∧
    (∀ k : Int, (getProjects projects).filter (fun p => p.order_index == k) =
      projects.filter (fun p => p.is_active && p.order_index == k)) ∧
    List.Perm (getAllProjects projects) projects ∧
    (getAllProjects projects).Pairwise (fun a b => a.order_index ≤ b.order_index) ∧
    (∀ k : Int, (getAllProjects projects).filter (fun p => p.order_index == k) =
      projects.filter (fun p => p.order_index == k)) := by
  have hcompat : ∀ (k : Int) (a b : Project), (a.order_index == k) = true →
      (b.order_index == k) = true → projectLe a b := by
    intro k a b ha hb
    rw [beq_iff_eq] at ha hb
    exact le_of_eq (ha.trans hb.symm)
  refine ⟨List.perm_insertionSort _ _, ?_, ?_, List.perm_insertionSort _ _, ?_, ?_⟩
  · exact List.sorted_insertionSort projectLe _
  · intro k
    have h1 := insertionSort_filter_eq projectLe (fun p => p.order_index == k)
      (projects.filter fun p => p.is_active) (hcompat k)
    show ((projects.filter fun p => p.is_active).insertionSort projectLe).filter _ = _
    rw [h1, List.filter_filter]
    exact List.filter_congr fun a _ => Bool.and_comm _ _
  · exact List.sorted_insertionSort projectLe _
  · intro k
    exact insertionSort_filter_eq projectLe (fun p => p.order_index == k)
      projects (hcompat k)

/-- C10: the seeding routine run against an empty `admin_users` table inserts
exactly the default admin (`username 'admin'`, hash of `'password'`, which
verifies against `'password'`); against a non-empty table it inserts
nothing. -/
theorem seedDatabase_admin_spec (users : List AdminUser) (table : List PageContent)
    (now : Nat) :
    (users = [] →
      (seedDatabase users table now).1 =
        [{ id := 1, username := "admin", password_hash := hashPassword "password",
           created_at := now, updated_at := now }] ∧
      ∀ u ∈ (seedDatabase users table now).1,
        u.username = "admin" ∧ verifyPassword "password" u.password_hash = true) ∧
    (users ≠ [] → (seedDatabase users table now).1 = users) := by
  constructor
  · rintro rfl
    refine ⟨by simp [seedDatabase, seedAdminUsers], ?_⟩
    intro u hu
    simp only [seedDatabase, seedAdminUsers, List.isEmpty_nil, if_true,
      List.mem_singleton] at hu
    subst hu
    exact ⟨rfl, by simp [verifyPassword]⟩
  · intro h
    have : users.isEmpty = false := by
      cases users with
      | nil => exact absurd rfl h
      | cons a t => rfl
    simp [seedDatabase, seedAdminUsers, this]

/-- Witness for C10: seeding an empty admin table at time 42 yields the
default admin, and seeding a non-empty one changes nothing. -/
theorem seedDatabase_admin_spec_witness :
    (seedDatabase [] [] 42).1 =
      [{ id := 1, username := "admin", password_hash := hashPassword "password",
         created_at := 42, updated_at := 42 }] ∧
    (seedDatabase [⟨9, "root", "h", 0, 0⟩] [] 42).1 = [⟨9, "root", "h", 0, 0⟩] :=
  ⟨((seedDatabase_admin_spec [] [] 42).1 rfl).1,
   (seedDatabase_admin_spec [⟨9, "root", "h", 0, 0⟩] [] 42).2 (by simp)⟩

/-- The shared pagination computation meets the §4.5 contract for any
positive page and limit. -/
theorem paginate_correct {α : Type} (rows : List α) (page limit : Nat)
    (hp : 1 ≤ page) (hl : 1 ≤ limit) :
    PaginationCorrect (paginate rows page limit) rows page limit := by
  obtain ⟨hle, hlt, hzero⟩ := ceil_div_facts rows.length limit hl
  refine ⟨rfl, rfl, rfl, rfl, hle, hlt, hzero, decide_eq_true_iff, decide_eq_true_iff, ?_⟩
  intro hbeyond
  constructor
  · show (rows.drop ((page - 1) * limit)).take limit = []
    rw [beyond_page_empty rows page limit hl hbeyond]
    exact List.take_nil
  · show decide (page < (rows.length + limit - 1) / limit) = false
    simp only [decide_eq_false_iff_not, not_lt]
    exact le_of_lt hbeyond

/-- C3: both paginated list handlers satisfy the §4.5 pagination contract over
their full ordered result sets, for every 1-based page and every limit in
`[1, 100]`: `total` counts the matching rows, `totalPages` is
`⌈total/limit⌉` (0 at 0), `hasNext ↔ page < totalPages`,
`hasPrev ↔ page > 1`, the data array is the slice at offset
`(page−1)·limit` of at most `limit` rows, and a page beyond `totalPages`
yields an empty data array with `hasNext = false` and `hasPrev` still
reflecting `page > 1`. -/
theorem pagination_spec (posts : List BlogPost) (page limit : Nat)
    (hpage : 1 ≤ page) (hlimit : 1 ≤ limit) (hcap : limit ≤ 100) :
    PaginationCorrect (getBlogPosts ⟨page, limit⟩ posts) (publishedSorted posts) page limit ∧
    PaginationCorrect (getAllBlogPosts ⟨page, limit⟩ posts) (allSorted posts) page limit :=
  ⟨paginate_correct _ page limit hpage hlimit, paginate_correct _ page limit hpage hlimit⟩

/-- Witness for C3 at the example of the spec: 12 published posts with
limit 5; page 3 carries the last 2 items, `hasNext = false`,
`hasPrev = true`. -/
theorem pagination_spec_witness :
    (1 ≤ 3 ∧ 1 ≤ 5 ∧ 5 ≤ 100) ∧
    PaginationCorrect (getBlogPosts ⟨3, 5⟩ twelvePosts) (publishedSorted twelvePosts) 3 5 ∧
    (getBlogPosts ⟨3, 5⟩ twelvePosts).data.length = 2 ∧
    (getBlogPosts ⟨3, 5⟩ twelvePosts).pagination.hasNext = false ∧
    (getBlogPosts ⟨3, 5⟩ twelvePosts).pagination.hasPrev = true :=
  ⟨by decide, (pagination_spec twelvePosts 3 5 (by decide) (by decide) (by decide)).1,
   by decide, by decide, by decide⟩

/-- C1 (spec-modelled: the handler source is a placeholder; the model follows
§4.1 and the handler's test suite): against a stored table of admin users
with distinct usernames, `adminLogin` with a matching username and a password
verifying against the stored hash returns `{success: true, token}` where
decoding the token yields the payload of the user id, username, issued-at
`now` and expiry `now + 24h`, strictly greater than issued-at; an input whose
username matches no stored user, or whose password fails verification,
yields the structured failure `{success: false, message: "Invalid
credentials"}` (the handler is a total function — it cannot throw). -/
theorem adminLogin_spec (users : List AdminUser) (input : AdminLoginInput) (now : Nat)
    (husers : users.Pairwise (fun a b => a.username ≠ b.username)) :
    (∀ u ∈ users, u.username = input.username →
      verifyPassword input.password u.password_hash = true →
      adminLogin input users now =
        { success := true
          token := some (encodeToken
            { userId := u.id, username := u.username, iat := now
              exp := now + 24 * 60 * 60 * 1000 })
          message := some "Login successful" } ∧
      ∃ payload,
        decodeToken (encodeToken
          { userId := u.id, username := u.username, iat := now
            exp := now + 24 * 60 * 60 * 1000 }) = some payload ∧
        payload.userId = u.id ∧ payload.username = u.username ∧
        payload.iat = now ∧ payload.iat < payload.exp) ∧
    ((∀ u ∈ users, u.username ≠ input.username) →
      adminLogin input users now = ⟨false, none, some "Invalid credentials"⟩) ∧
    (∀ u ∈ users, u.username = input.username →
      verifyPassword input.password u.password_hash = false →
      adminLogin input users now = ⟨false, none, some "Invalid credentials"⟩) := by
  have hpair : users.Pairwise (fun a b =>
      (a.username == input.username) = true → (b.username == input.username) = false) := by
    refine husers.imp ?_
    intro a b h ha
    rw [beq_iff_eq] at ha
    rw [beq_eq_false_iff_ne]
    exact fun hb => h (ha.trans hb.symm)
  refine ⟨?_, ?_, ?_⟩
  · intro u hu hun hver
    have hfind : users.find? (fun v => v.username == input.username) = some u :=
      find?_unique hpair hu (by rw [beq_iff_eq]; exact hun)
    constructor
    · simp [adminLogin, hfind, hver]
    · refine ⟨_, decodeToken_encodeToken _, rfl, rfl, rfl, ?_⟩
      show now < now + 24 * 60 * 60 * 1000
      omega
  · intro h
    have hfind : users.find? (fun v => v.username == input.username) = none := by
      rw [List.find?_eq_none]
      intro v hv
      simpa using h v hv
    simp [adminLogin, hfind]
  · intro u hu hun hver
    have hfind : users.find? (fun v => v.username == input.username) = some u :=
      find?_unique hpair hu (by rw [beq_iff_eq]; exact hun)
    simp [adminLogin, hfind, hver]

/-- Witness for C1: the seeded admin logs in successfully at time 5 with the
expected token; with a wrong password the result is the generic failure. -/
theorem adminLogin_spec_witness :
    adminLogin ⟨"admin", "password"⟩ [⟨1, "admin", hashPassword "password", 0, 0⟩] 5 =
      { success := true
        token := some (encodeToken
          { userId := 1, username := "admin", iat := 5, exp := 5 + 24 * 60 * 60 * 1000 })
        message := some "Login successful" } ∧
    adminLogin ⟨"admin", "wrong"⟩ [⟨1, "admin", hashPassword "password", 0, 0⟩] 5 =
      ⟨false, none, some "Invalid credentials"⟩ :=
  ⟨((adminLogin_spec [⟨1, "admin", hashPassword "password", 0, 0⟩] ⟨"admin", "password"⟩ 5
      (by simp)).1 ⟨1, "admin", hashPassword "password", 0, 0⟩ (by simp) rfl (by decide)).1,
   (adminLogin_spec [⟨1, "admin", hashPassword "password", 0, 0⟩] ⟨"admin", "wrong"⟩ 5
      (by simp)).2.2 ⟨1, "admin", hashPassword "password", 0, 0⟩ (by simp) rfl (by decide)⟩

/-- C2 counterexample: the claim says `getBlogPostBySlug` returns null even
when a row with the slug exists in a non-public state; but outside the test
environment an unpublished row whose slug matches a built-in demo slug makes
the handler return the demo post instead of null. -/
theorem getBlogPostBySlug_fallback_cex :
    (getBlogPostBySlug "getting-started-with-modern-web-development" false 259200000
      [{ id := 7, title := "Draft", slug := "getting-started-with-modern-web-development",
         excerpt := none, content := "draft", image_url := none,
         is_published := false, published_at := none, created_at := 0,
         updated_at := 0 }]).isSome = true := by
  decide

/-- C2 (amended): `getBlogPosts` draws its pages from exactly the posts with
`is_published = true` and non-null `published_at`, sorted descending by
`published_at`; `getBlogPostBySlug` returns the post with the slug only if it
is published with non-null `published_at` (whatever the environment), and on
a miss returns null in the test environment, while outside the test
environment the miss is looked up among the three built-in demo posts. -/
theorem blog_public_queries_spec (posts : List BlogPost) :
    List.Perm (publishedSorted posts) (posts.filter publiclyVisible) ∧
    (∀ p ∈ publishedSorted posts, p.is_published = true ∧ p.published_at ≠ none) ∧
    (∀ p ∈ posts, p.is_published = true → p.published_at ≠ none →
      p ∈ publishedSorted posts) ∧
    (publishedSorted posts).Pairwise
      (fun a b => b.published_at.getD 0 ≤ a.published_at.getD 0) ∧
    (∀ input : PaginationInput, (getBlogPosts input posts).data =
      ((publishedSorted posts).drop ((input.page - 1) * input.limit)).take input.limit) ∧
    (∀ (slug : String) (env : Bool) (now : Nat) (p : BlogPost),
      slugsUnique posts → p ∈ posts → p.slug = slug →
      p.is_published = true → p.published_at ≠ none →
      getBlogPostBySlug slug env now posts = some p) ∧
    (∀ (slug : String) (now : Nat),
      (∀ p ∈ posts, p.slug = slug → ¬(p.is_published = true ∧ p.published_at ≠ none)) →
      getBlogPostBySlug slug true now posts = none) ∧
    (∀ (slug : String) (now : Nat),
      (∀ p ∈ posts, p.slug = slug → ¬(p.is_published = true ∧ p.published_at ≠ none)) →
      getBlogPostBySlug slug false now posts =
        (getDefaultBlogPosts now).find? (fun q => q.slug == slug)) := by
  have hvis : ∀ p : BlogPost, publiclyVisible p = true ↔
      p.is_published = true ∧ p.published_at ≠ none := by
    intro p
    simp [publiclyVisible, Option.isSome_iff_ne_none]
  have hmiss : ∀ (slug : String),
      (∀ p ∈ posts, p.slug = slug → ¬(p.is_published = true ∧ p.published_at ≠ none)) →
      posts.find? (fun p => p.slug == slug && publiclyVisible p) = none := by
    intro slug h
    rw [List.find?_eq_none]
    intro p hp hpred
    rw [Bool.and_eq_true, beq_iff_eq] at hpred
    exact h p hp hpred.1 ((hvis p).mp hpred.2)
  refine ⟨List.perm_insertionSort _ _, ?_, ?_, ?_, fun _ => rfl, ?_, ?_, ?_⟩
  · intro p hp
    have : p ∈ posts.filter publiclyVisible :=
      (List.perm_insertionSort _ _).mem_iff.mp hp
    exact (hvis p).mp (List.of_mem_filter this)
  · intro p hp hpub hat
    exact (List.perm_insertionSort _ _).mem_iff.mpr
      (List.mem_filter.mpr ⟨hp, (hvis p).mpr ⟨hpub, hat⟩⟩)
  · exact List.sorted_insertionSort publishedAtDesc _
  · intro slug env now p huniq hp hslug hpub hat
    have hpair : posts.Pairwise (fun a b =>
        (a.slug == slug && publiclyVisible a) = true →
        (b.slug == slug && publiclyVisible b) = false) := by
      refine huniq.imp ?_
      intro a b h ha
      rw [Bool.and_eq_true, beq_iff_eq] at ha
      rw [Bool.and_eq_false_iff]
      left
      rw [beq_eq_false_iff_ne]
      exact fun hb => h (ha.1.trans hb.symm)
    have hfind : posts.find? (fun q => q.slug == slug && publiclyVisible q) = some p :=
      find?_unique hpair hp
        (by rw [Bool.and_eq_true, beq_iff_eq]; exact ⟨hslug, (hvis p).mpr ⟨hpub, hat⟩⟩)
    simp [getBlogPostBySlug, hfind]
  · intro slug now h
    simp [getBlogPostBySlug, hmiss slug h]
  · intro slug now h
    simp [getBlogPostBySlug, hmiss slug h]

/-- Witness for C2 (amended) at a concrete table: a published post is found
by slug in any environment. -/
theorem blog_public_queries_spec_witness :
    getBlogPostBySlug "hello" true 0
      [⟨1, "T", "hello", none, "c", none, true, some 10, 0, 0⟩] =
      some ⟨1, "T", "hello", none, "c", none, true, some 10, 0, 0⟩ :=
  (blog_public_queries_spec
      [⟨1, "T", "hello", none, "c", none, true, some 10, 0, 0⟩]).2.2.2.2.2.1
    "hello" true 0 ⟨1, "T", "hello", none, "c", none, true, some 10, 0, 0⟩
    (by simp [slugsUnique]) (by simp) rfl rfl (by simp)

/-- `updatePageContent` preserves the page-type uniqueness invariant. -/
theorem updatePageContent_unique (input : UpdatePageContentInput)
    (table : List PageContent) (now : Nat) (huniq : pageContentUnique table) :
    pageContentUnique (updatePageContent input table now).2 := by
  cases hany : table.any (fun r => decide (r.page_type = input.page_type)) with
  | true =>
    simp only [updatePageContent, hany, if_true]
    rw [pageContentUnique, List.pairwise_map]
    have hpt : ∀ x : PageContent,
        (if decide (x.page_type = input.page_type) then
          { x with
            hero_title := input.hero_title
            hero_text := input.hero_text
            hero_image_url := input.hero_image_url
            content_sections := input.content_sections
            updated_at := now } else x).page_type = x.page_type := by
      intro x
      by_cases hx : x.page_type = input.page_type <;> simp [hx]
    refine huniq.imp ?_
    intro a b h hcontra
    rw [hpt a, hpt b] at hcontra
    exact h hcontra
  | false =>
    simp only [updatePageContent, hany, Bool.false_eq_true, if_false]
    rw [pageContentUnique, List.pairwise_append]
    refine ⟨huniq, List.pairwise_singleton _ _, ?_⟩
    intro a ha b hb
    rw [List.mem_singleton] at hb
    subst hb
    have := List.any_eq_false.mp hany a ha
    simpa using this

/-- After `updatePageContent`, exactly one row carries the target page type. -/
theorem updatePageContent_count (input : UpdatePageContentInput)
    (table : List PageContent) (now : Nat) (huniq : pageContentUnique table) :
    (updatePageContent input table now).2.countP
      (fun r => decide (r.page_type = input.page_type)) = 1 := by
  have hpair : table.Pairwise (fun a b =>
      decide (a.page_type = input.page_type) = true →
      decide (b.page_type = input.page_type) = false) := by
    refine huniq.imp ?_
    intro a b h ha
    rw [decide_eq_true_eq] at ha
    rw [decide_eq_false_iff_not]
    exact fun hb => h (ha.trans hb.symm)
  cases hany : table.any (fun r => decide (r.page_type = input.page_type)) with
  | true =>
    obtain ⟨a, ha, hpa⟩ := List.any_eq_true.mp hany
    simp only [updatePageContent, hany, if_true]
    rw [countP_map_ite]
    · exact countP_eq_one_of_unique hpair ha hpa
    · intro x
      by_cases hx : x.page_type = input.page_type <;> simp [hx]
  | false =>
    simp only [updatePageContent, hany, Bool.false_eq_true, if_false]
    rw [List.countP_append]
    have h0 : table.countP (fun r => decide (r.page_type = input.page_type)) = 0 := by
      rw [List.countP_eq_zero]
      intro r hr
      simpa using List.any_eq_false.mp hany r hr
    simp [h0, List.countP_cons]

/-- C4: `updatePageContent` has upsert semantics over the unique page-type
key: starting from a table with at most one row per page type, the call
leaves exactly one row for the target page type (and keeps the invariant);
when a row existed, the returned row keeps its id and `created_at`, all four
content fields are overwritten and `updated_at` is refreshed to now; when
none existed, a fresh row with `created_at = updated_at = now` is inserted;
rows of other page types are untouched, and a second call with the same page
type still leaves exactly one row. -/
theorem updatePageContent_upsert (input : UpdatePageContentInput)
    (table : List PageContent) (now : Nat) (huniq : pageContentUnique table) :
    pageContentUnique (updatePageContent input table now).2 ∧
    (updatePageContent input table now).2.countP
      (fun r => decide (r.page_type = input.page_type)) = 1 ∧
    (∀ r ∈ table, r.page_type ≠ input.page_type →
      r ∈ (updatePageContent input table now).2) ∧
    (∀ r ∈ table, r.page_type = input.page_type →
      (updatePageContent input table now).1 =
        some { r with
               hero_title := input.hero_title
               hero_text := input.hero_text
               hero_image_url := input.hero_image_url
               content_sections := input.content_sections
               updated_at := now }) ∧
    ((∀ r ∈ table, r.page_type ≠ input.page_type) →
      (updatePageContent input table now).1 =
        some { id := nextPageContentId table
               page_type := input.page_type
               hero_title := input.hero_title
               hero_text := input.hero_text
               hero_image_url := input.hero_image_url
               content_sections := input.content_sections
               created_at := now
               updated_at := now } ∧
      (updatePageContent input table now).2 =
        table ++ [{ id := nextPageContentId table
                    page_type := input.page_type
                    hero_title := input.hero_title
                    hero_text := input.hero_text
                    hero_image_url := input.hero_image_url
                    content_sections := input.content_sections
                    created_at := now
                    updated_at := now }]) ∧
    (∀ (input2 : UpdatePageContentInput) (now2 : Nat),
      input2.page_type = input.page_type →
      (updatePageContent input2 (updatePageContent input table now).2 now2).2.countP
        (fun r => decide (r.page_type = input.page_type)) = 1) := by
  have hpair : table.Pairwise (fun a b =>
      decide (a.page_type = input.page_type) = true →
      decide (b.page_type = input.page_type) = false) := by
    refine huniq.imp ?_
    intro a b h ha
    rw [decide_eq_true_eq] at ha
    rw [decide_eq_false_iff_not]
    exact fun hb => h (ha.trans hb.symm)
  refine ⟨updatePageContent_unique input table now huniq,
    updatePageContent_count input table now huniq, ?_, ?_, ?_, ?_⟩
  · intro r hr hne
    cases hany : table.any (fun x => decide (x.page_type = input.page_type)) with
    | true =>
      simp only [updatePageContent, hany, if_true]
      exact List.mem_map.mpr ⟨r, hr, by simp [hne]⟩
    | false =>
      simp only [updatePageContent, hany, Bool.false_eq_true, if_false]
      exact List.mem_append_left _ hr
  · intro r hr heq
    have hany : table.any (fun x => decide (x.page_type = input.page_type)) = true :=
      List.any_eq_true.mpr ⟨r, hr, by simp [heq]⟩
    simp only [updatePageContent, hany, if_true]
    rw [find?_map_ite ?hf]
    case hf =>
      intro x hx
      rw [decide_eq_true_eq] at hx
      simpa using hx
    rw [find?_unique hpair hr (by simp [heq])]
    rfl
  · intro h
    have hany : table.any (fun x => decide (x.page_type = input.page_type)) = false := by
      rw [List.any_eq_false]
      intro x hx
      simpa using h x hx
    simp [updatePageContent, hany]
  · intro input2 now2 heq
    have h := updatePageContent_count input2 (updatePageContent input table now).2 now2
      (updatePageContent_unique input table now huniq)
    rwa [heq] at h

/-- Witness for C4: upserting into an empty table inserts one row with
`created_at = updated_at = now`; a second upsert of the same page type keeps
exactly one row. -/
theorem updatePageContent_upsert_witness :
    (updatePageContent ⟨.home, "T", "X", none, "S"⟩ [] 3).1 =
      some ⟨1, .home, "T", "X", none, "S", 3, 3⟩ ∧
    (updatePageContent ⟨.home, "T2", "X2", none, "S2"⟩
        (updatePageContent ⟨.home, "T", "X", none, "S"⟩ [] 3).2 5).2.countP
      (fun r => decide (r.page_type = PageType.home)) = 1 :=
  ⟨((updatePageContent_upsert ⟨.home, "T", "X", none, "S"⟩ [] 3
      (by simp [pageContentUnique])).2.2.2.2.1 (by simp)).1,
   (updatePageContent_upsert ⟨.home, "T", "X", none, "S"⟩ [] 3
      (by simp [pageContentUnique])).2.2.2.2.2 ⟨.home, "T2", "X2", none, "S2"⟩ 5 rfl⟩

/-- C5 counterexample: the claim says `getPageContent` returns null when no
row for the page type exists, with no fallback content generation; but
outside the test environment the handler returns the built-in demo content
for a missing row. -/
theorem getPageContent_fallback_cex :
    (getPageContent .home false 0 []).isSome = true := by
  decide

/-- C5 (amended): `getPageContent(pageType)` returns the single stored row
matching the page type (in any environment, with no fallback applied); when
no such row exists it returns null in the test environment, while outside
the test environment the built-in demo content is returned instead. -/
theorem getPageContent_spec (pt : PageType) (env : Bool) (now : Nat)
    (table : List PageContent) (huniq : pageContentUnique table) :
    (∀ r ∈ table, r.page_type = pt → getPageContent pt env now table = some r) ∧
    ((∀ r ∈ table, r.page_type ≠ pt) → getPageContent pt true now table = none) ∧
    ((∀ r ∈ table, r.page_type ≠ pt) →
      getPageContent pt false now table = some (getDefaultPageContent pt now)) := by
  have hpair : table.Pairwise (fun a b =>
      decide (a.page_type = pt) = true → decide (b.page_type = pt) = false) := by
    refine huniq.imp ?_
    intro a b h ha
    rw [decide_eq_true_eq] at ha
    rw [decide_eq_false_iff_not]
    exact fun hb => h (ha.trans hb.symm)
  have hmiss : (∀ r ∈ table, r.page_type ≠ pt) →
      table.find? (fun r => decide (r.page_type = pt)) = none := by
    intro h
    rw [List.find?_eq_none]
    intro r hr
    simpa using h r hr
  refine ⟨?_, ?_, ?_⟩
  · intro r hr heq
    have hfind : table.find? (fun x => decide (x.page_type = pt)) = some r :=
      find?_unique hpair hr (by simp [heq])
    simp [getPageContent, hfind]
  · intro h
    simp [getPageContent, hmiss h]
  · intro h
    simp [getPageContent, hmiss h]

/-- Witness for C5 (amended): a stored home row is returned as-is even
outside the test environment. -/
theorem getPageContent_spec_witness :
    getPageContent .home false 7 [⟨5, .home, "a", "b", none, "c", 1, 2⟩] =
      some ⟨5, .home, "a", "b", none, "c", 1, 2⟩ :=
  (getPageContent_spec .home false 7 [⟨5, .home, "a", "b", none, "c", 1, 2⟩]
      (by simp [pageContentUnique])).1
    ⟨5, .home, "a", "b", none, "c", 1, 2⟩ (by simp) rfl

/-- C6: `updateBlogPost` throws a not-found error when the id matches no
stored post; it throws a duplicate-slug error when the supplied slug equals
the slug of a *different* existing post; and supplying the post's own current
slug succeeds. -/
theorem updateBlogPost_errors (input : UpdateBlogPostInput) (posts : List BlogPost)
    (now : Nat) :
    ((∀ p ∈ posts, p.id ≠ input.id) →
      updateBlogPost input posts now =
        .error ("Blog post with id " ++ toString input.id ++ " not found")) ∧
    (∀ s : String, input.slug = some s → s ≠ "" →
      (∃ p ∈ posts, p.id = input.id) →
      (∃ q ∈ posts, q.slug = s ∧ q.id ≠ input.id) →
      updateBlogPost input posts now =
        .error ("Blog post with slug \x27" ++ s ++ "\x27 already exists")) ∧
    (slugsUnique posts → ∀ p ∈ posts, p.id = input.id → input.slug = some p.slug →
      ∃ result, updateBlogPost input posts now = .ok result) := by
  refine ⟨?_, ?_, ?_⟩
  · intro h
    have hfind : posts.find? (fun p => p.id == input.id) = none := by
      rw [List.find?_eq_none]
      intro p hp
      simpa using h p hp
    simp [updateBlogPost, hfind]
  · rintro s hslug hsne ⟨p, hp, hpi⟩ ⟨q, hq, hqs, hqne⟩
    have hsome : (posts.find? (fun x => x.id == input.id)).isSome :=
      List.find?_isSome.mpr ⟨p, hp, by simp [hpi]⟩
    obtain ⟨old, hfind⟩ := Option.isSome_iff_exists.mp hsome
    have hisE : s.isEmpty = false := by
      have : ¬(s.isEmpty = true) := fun h => hsne ((String.isEmpty_iff s).mp h)
      rwa [Bool.not_eq_true] at this
    have hany : posts.any (fun x => x.slug == s && x.id != input.id) = true :=
      List.any_eq_true.mpr ⟨q, hq, by simp [hqs, bne_iff_ne, hqne]⟩
    simp [updateBlogPost, hfind, hslug, hisE, hany]
  · intro huniq p hp hpi hslugEq
    have hsome : (posts.find? (fun x => x.id == input.id)).isSome :=
      List.find?_isSome.mpr ⟨p, hp, by simp [hpi]⟩
    obtain ⟨old, hfind⟩ := Option.isSome_iff_exists.mp hsome
    have hsymm : Symmetric (fun a b : BlogPost => a.slug ≠ b.slug) :=
      fun a b h he => h he.symm
    have hany : posts.any (fun x => x.slug == p.slug && x.id != input.id) = false := by
      rw [List.any_eq_false]
      intro x hx hpred
      rw [Bool.and_eq_true, beq_iff_eq, bne_iff_ne] at hpred
      obtain ⟨hxs, hxid⟩ := hpred
      by_cases hxp : x = p
      · subst hxp
        exact hxid hpi
      · exact List.Pairwise.forall hsymm huniq hx hp hxp hxs
    refine ⟨(applyBlogPostUpdate input now old,
      posts.map fun x => if x.id == input.id then applyBlogPostUpdate input now x else x), ?_⟩
    simp [updateBlogPost, hfind, hslugEq, hany]

/-- Witness for C6: updating a post's slug to its own current value succeeds,
and a conflicting slug of a different post raises the duplicate error. -/
theorem updateBlogPost_errors_witness :
    (∃ result,
      updateBlogPost ⟨1, none, some "a", none, none, none, none, none⟩
        [⟨1, "T", "a", none, "c", none, false, none, 0, 0⟩,
         ⟨2, "U", "b", none, "d", none, false, none, 0, 0⟩] 9 = .ok result) ∧
    updateBlogPost ⟨1, none, some "b", none, none, none, none, none⟩
        [⟨1, "T", "a", none, "c", none, false, none, 0, 0⟩,
         ⟨2, "U", "b", none, "d", none, false, none, 0, 0⟩] 9 =
      .error ("Blog post with slug \x27b\x27 already exists") :=
  ⟨(updateBlogPost_errors ⟨1, none, some "a", none, none, none, none, none⟩
      [⟨1, "T", "a", none, "c", none, false, none, 0, 0⟩,
       ⟨2, "U", "b", none, "d", none, false, none, 0, 0⟩] 9).2.2
      (by simp [slugsUnique]) ⟨1, "T", "a", none, "c", none, false, none, 0, 0⟩
      (by simp) rfl rfl,
   (updateBlogPost_errors ⟨1, none, some "b", none, none, none, none, none⟩
      [⟨1, "T", "a", none, "c", none, false, none, 0, 0⟩,
       ⟨2, "U", "b", none, "d", none, false, none, 0, 0⟩] 9).2.1 "b" rfl
      (by decide) ⟨⟨1, "T", "a", none, "c", none, false, none, 0, 0⟩, by simp, rfl⟩
      ⟨⟨2, "U", "b", none, "d", none, false, none, 0, 0⟩, by simp, rfl, by decide⟩⟩

/-- C8: partial updates change only the supplied fields: on an existing id
(with the table's id uniqueness), `updateProject` and `updateBlogPost` return
the target row with exactly the supplied fields applied, `updated_at`
refreshed to now even when no field is supplied, every unsupplied field equal
to its prior value, and every other row untouched. -/
theorem update_frame_spec (pInput : UpdateProjectInput) (projects : List Project)
    (bInput : UpdateBlogPostInput) (posts : List BlogPost) (now : Nat) :
    (projects.Pairwise (fun a b => a.id ≠ b.id) → ∀ p ∈ projects, p.id = pInput.id →
      ProjectUpdateOk pInput projects now p) ∧
    (posts.Pairwise (fun a b => a.id ≠ b.id) →
      (∀ s, bInput.slug = some s → ∀ q ∈ posts, q.slug = s → q.id = bInput.id) →
      ∀ p ∈ posts, p.id = bInput.id → BlogPostUpdateOk bInput posts now p) := by
  constructor
  · intro hids p hp hpi
    have hpair : projects.Pairwise (fun a b =>
        (a.id == pInput.id) = true → (b.id == pInput.id) = false) := by
      refine hids.imp ?_
      intro a b h ha
      rw [beq_iff_eq] at ha
      rw [beq_eq_false_iff_ne]
      exact fun hb => h (ha.trans hb.symm)
    have hf : ∀ x : Project, (x.id == pInput.id) = true →
        ((applyProjectUpdate pInput now x).id == pInput.id) = true := fun x hx => hx
    have hfind0 : projects.find? (fun q => q.id == pInput.id) = some p :=
      find?_unique hpair hp (by simp [hpi])
    have hfind : (projects.map fun q =>
        if q.id == pInput.id then applyProjectUpdate pInput now q else q).find?
          (fun q => q.id == pInput.id) = some (applyProjectUpdate pInput now p) := by
      rw [find?_map_ite hf, hfind0]
      rfl
    refine ⟨projects.map fun q =>
        if q.id == pInput.id then applyProjectUpdate pInput now q else q,
      ?_, ?_, ?_, rfl, rfl, rfl,
      fun h => by simp [applyProjectUpdate, h],
      fun h => by simp [applyProjectUpdate, h],
      fun h => by simp [applyProjectUpdate, h],
      fun h => by simp [applyProjectUpdate, h],
      fun h => by simp [applyProjectUpdate, h], ?_⟩
    · simp only [updateProject]
      rw [hfind]
    · intro q hq hqne
      exact List.mem_map.mpr ⟨q, hq, by simp [hqne]⟩
    · intro q hq hqne
      obtain ⟨x, hx, hxe⟩ := List.mem_map.mp hq
      by_cases hxid : (x.id == pInput.id) = true
      · exfalso
        rw [if_pos hxid] at hxe
        apply hqne
        rw [← hxe]
        exact beq_iff_eq.mp hxid
      · rw [Bool.not_eq_true] at hxid
        rw [hxid] at hxe
        simp only [Bool.false_eq_true, if_false] at hxe
        rwa [← hxe]
    · rintro ⟨h1, h2, h3, h4, h5⟩
      simp [applyProjectUpdate, h1, h2, h3, h4, h5]
  · intro hids hnoconf p hp hpi
    have hpair : posts.Pairwise (fun a b =>
        (a.id == bInput.id) = true → (b.id == bInput.id) = false) := by
      refine hids.imp ?_
      intro a b h ha
      rw [beq_iff_eq] at ha
      rw [beq_eq_false_iff_ne]
      exact fun hb => h (ha.trans hb.symm)
    have hfind0 : posts.find? (fun q => q.id == bInput.id) = some p :=
      find?_unique hpair hp (by simp [hpi])
    have hconf : (match bInput.slug with
        | some s => !s.isEmpty && posts.any (fun q => q.slug == s && q.id != bInput.id)
        | none => false) = false := by
      cases hslug : bInput.slug with
      | none => rfl
      | some s =>
        have hany : posts.any (fun q => q.slug == s && q.id != bInput.id) = false := by
          rw [List.any_eq_false]
          intro x hx hpred
          rw [Bool.and_eq_true, beq_iff_eq, bne_iff_ne] at hpred
          exact hpred.2 (hnoconf s hslug x hx hpred.1)
        simp [hany]
    refine ⟨posts.map fun q =>
        if q.id == bInput.id then applyBlogPostUpdate bInput now q else q,
      ?_, ?_, ?_, rfl, rfl, rfl,
      fun h => by simp [applyBlogPostUpdate, h],
      fun h => by simp [applyBlogPostUpdate, h],
      fun h => by simp [applyBlogPostUpdate, h],
      fun h => by simp [applyBlogPostUpdate, h],
      fun h => by simp [applyBlogPostUpdate, h],
      fun h => by simp [applyBlogPostUpdate, h],
      fun h => by simp [applyBlogPostUpdate, h], ?_⟩
    · simp only [updateBlogPost, hfind0, hconf, Bool.false_eq_true, if_false]
    · intro q hq hqne
      exact List.mem_map.mpr ⟨q, hq, by simp [hqne]⟩
    · intro q hq hqne
      obtain ⟨x, hx, hxe⟩ := List.mem_map.mp hq
      by_cases hxid : (x.id == bInput.id) = true
      · exfalso
        rw [if_pos hxid] at hxe
        apply hqne
        rw [← hxe]
        exact beq_iff_eq.mp hxid
      · rw [Bool.not_eq_true] at hxid
        rw [hxid] at hxe
        simp only [Bool.false_eq_true, if_false] at hxe
        rwa [← hxe]
    · rintro ⟨h1, h2, h3, h4, h5, h6, h7⟩
      simp [applyBlogPostUpdate, h1, h2, h3, h4, h5, h6, h7]

/-- Witness for C8: the no-field update of the only project and the only blog
post refreshes `updated_at` and leaves everything else as it was. -/
theorem update_frame_spec_witness :
    ProjectUpdateOk ⟨1, none, none, none, none, none⟩
      [⟨1, "t", none, none, 0, true, 2, 2⟩] 9 ⟨1, "t", none, none, 0, true, 2, 2⟩ ∧
    BlogPostUpdateOk ⟨1, none, none, none, none, none, none, none⟩
      [⟨1, "T", "a", none, "c", none, false, none, 2, 2⟩] 9
      ⟨1, "T", "a", none, "c", none, false, none, 2, 2⟩ :=
  ⟨(update_frame_spec ⟨1, none, none, none, none, none⟩
      [⟨1, "t", none, none, 0, true, 2, 2⟩]
      ⟨1, none, none, none, none, none, none, none⟩
      [⟨1, "T", "a", none, "c", none, false, none, 2, 2⟩] 9).1
      (by simp) ⟨1, "t", none, none, 0, true, 2, 2⟩ (by simp) rfl,
   (update_frame_spec ⟨1, none, none, none, none, none⟩
      [⟨1, "t", none, none, 0, true, 2, 2⟩]
      ⟨1, none, none, none, none, none, none, none⟩
      [⟨1, "T", "a", none, "c", none, false, none, 2, 2⟩] 9).2
      (by simp) (by simp) ⟨1, "T", "a", none, "c", none, false, none, 2, 2⟩ (by simp) rfl⟩

end Portfolio
